import Mathlib

/-!
Verification of the teleport client trust cache, keystore, defaults and
configuration code.

The development shallowly embeds the following Go functions:
* `lib/client` keystore (`AddHostSignersToCache`, `CheckHostSignature`,
  `loadAllKeys`, `GetLocalAgentKeys`, `GetLocalAgent`);
* `lib/defaults` constants;
* `lib/service/cfg.go` (`Config`, `ApplyToken`, `MakeDefaultConfig`);
* `tool/teleport/configuration.go` (`isCmdLabelSpec`, the limiter
  paragraph of `applyFileConfig`).

Machine integers are modelled as `Nat`/`Int` (no overflow is reachable at
the modelled values), byte strings as `List Nat`, IO outcomes as explicit
`Option`/`Except` parameters.
-/

namespace Teleport

/-- A Go `error` value.  The repository produces errors either through
`trace.Errorf` / `fmt.Errorf` (a plain formatted message, carrying no
programmatic kind) or through typed constructors such as
`teleport.BadParameter(param, msg)`.  `trace.Wrap` only decorates an error
with a stack trace, which we do not model. -/
inductive GoErr where
  /-- `trace.Errorf(msg)` / `fmt.Errorf(msg)`: a generic formatted error. -/
  | errorf (msg : String) : GoErr
  /-- `teleport.BadParameter(param, msg)`: typed bad-parameter error. -/
  | badParameter (param : String) (msg : String) : GoErr
  deriving DecidableEq, Repr

/-- The programmatic *kind* of an error: which typed constructor (if any)
produced it.  Two `errorf` errors with different messages have the same
kind: a caller cannot tell them apart other than by string comparison. -/
inductive GoErrKind where
  | generic : GoErrKind
  | badParameterKind : GoErrKind
  deriving DecidableEq, Repr

/-- Kind classifier for `GoErr`. -/
def GoErr.kind : GoErr → GoErrKind
  | .errorf _ => .generic
  | .badParameter _ _ => .badParameterKind

/-- `trace.Wrap` on a `nil`-able error (`Option GoErr`): it returns the
error it was given, annotated with a stack trace (not modelled), and
wraps `nil` to `nil`.  In particular `trace.Wrap(nil) = nil`: the lines
`return trace.Wrap(nil)` in `lib/client` keystore discard the real error
and return success. -/
def traceWrap : Option GoErr → Option GoErr := fun e => e

/-- SSH public-key material, compared byte for byte
(`sshutils.KeysEqual`; the spec: "compare (byte equality)"). -/
abbrev KeyBytes := List Nat

/-- `sshutils.KeysEqual`: byte equality of the marshalled keys. -/
def keysEqual (a b : KeyBytes) : Bool := a == b

/-- The type of a certificate authority (`services.HostCA` /
`services.UserCA`). -/
inductive CAType where
  | host : CAType
  | user : CAType
  deriving DecidableEq, Repr

/-- `services.CertAuthority`.  Modelled from the spec: "domain name, type,
ordered list of signing private keys, ordered list of checking public
keys" (the `lib/services` source is not part of the corpus; only its
callers are).  `Checkers()` is modelled as returning `checkingKeys`. -/
structure CertAuthority where
  domainName : String
  caType : CAType
  signingKeys : List KeyBytes
  checkingKeys : List KeyBytes
  deriving DecidableEq, Repr

/-- A host key offered during an SSH handshake: either a raw public key or
an SSH certificate.  Of a certificate, `CheckHostSignature` inspects only
its `SignatureKey` (the public key of the CA that signed it). -/
inductive HostKey where
  | raw (key : KeyBytes) : HostKey
  | cert (signatureKey : KeyBytes) : HostKey
  deriving DecidableEq, Repr

/-- The `for _, hostSigner := range hostSigners` loop body of
`AddHostSignersToCache`: upsert each CA, returning `trace.Wrap(nil)` on
the first failure. -/
def upsertAll (upsertErr : CertAuthority → Option GoErr) :
    List CertAuthority → Option GoErr
  | [] => none
  | signer :: rest =>
    match upsertErr signer with
    | some _ => traceWrap none
    | none => upsertAll upsertErr rest

/-- `client.AddHostSignersToCache(hostSigners)` from `lib/client`.

IO outcomes are explicit parameters: `bkOpen` is the result of
`boltbk.New` (`none` = opened), `upsertErr signer` the result of
`ca.UpsertCertAuthority(signer, 0)` (`none` = stored).

The source returns `trace.Wrap(nil)` — not `trace.Wrap(err)` — on both
failure paths, so the underlying error is discarded. -/
def AddHostSignersToCache (bkOpen : Option GoErr) (upsertErr : CertAuthority → Option GoErr)
    (hostSigners : List CertAuthority) : Option GoErr :=
  match bkOpen with
  | some _ => traceWrap none
  | none => upsertAll upsertErr hostSigners

/-- `client.CheckHostSignature(hostId, remote, key)` from `lib/client`.

`bkOpen` is the result of `boltbk.New` (`none` = opened); `getCAs` the
result of `ca.GetCertAuthorities(services.HostCA)` — on success, the list
of host CAs stored in the local trust cache.  `hostId` and `remote` are
unused by the source body and omitted.

Note the open-failure branch: the source is `return trace.Wrap(nil)`, so
the open error is discarded and `nil` (accept) is returned. -/
def CheckHostSignature (key : HostKey) (bkOpen : Option GoErr)
    (getCAs : Except GoErr (List CertAuthority)) : Option GoErr :=
  match key with
  | .raw _ => some (.errorf "expected certificate")
  | .cert sigKey =>
    match bkOpen with
    | some _ => traceWrap none
    | none =>
      match getCAs with
      | .error e => traceWrap (some e)
      | .ok cas =>
        if cas.any (fun ca => ca.checkingKeys.any (fun checker => keysEqual sigKey checker)) then
          none
        else
          some (.errorf "no matching authority found")

/-- `trace.Wrap` applied to an error known to be non-`nil`: the error is
preserved (the stack-trace annotation is not modelled). -/
def traceWrapE (e : GoErr) : GoErr := e

/-- `client.Key`: one short-lived user key stored on disk.  `Priv` and
`Cert` are byte slices, `Deadline` a `time.Time` modelled as Unix
nanoseconds. -/
structure Key where
  priv : List Nat
  cert : List Nat
  deadline : Nat
  deriving DecidableEq, Repr

def KeyFilePre : String := "teleport_"

def KeyFileSuffix : String := ".tkey"

def HostSignersFilename : String := "hostsigners.db"

/-- One entry of the keys directory as listed by `ioutil.ReadDir`.
`load` is the combined outcome of `ioutil.ReadFile` + `json.Unmarshal`
for this file: `some k` when both succeed, `none` when either fails
(the source logs the error and skips the file). -/
structure DirEntry where
  name : String
  isDir : Bool
  load : Option Key
  deriving DecidableEq, Repr

/-- `strings.HasPrefix`, computed on the character list (every pattern
used in the corpus is ASCII, for which byte-level and character-level
matching coincide). -/
def goHasPre : List Char → List Char → Bool
  | _, [] => true
  | [], _ :: _ => false
  | c :: s, p :: ps => c == p && goHasPre s ps

/-- `strings.HasSuffix`, computed on the character list. -/
def goHasSuffix (s suf : List Char) : Bool := goHasPre s.reverse suf.reverse

/-- The filename filter of `loadAllKeys`: regular file named
`teleport_*.tkey`. -/
def isKeyFile (e : DirEntry) : Bool :=
  !e.isDir && goHasPre e.name.data KeyFilePre.data && goHasSuffix e.name.data KeyFileSuffix.data

/-- The per-file loop of `client.loadAllKeys` over the listed entries.
Returns the kept keys (in directory order) and the names of the expired
files passed to `os.Remove`.  `now` is `time.Now()` in Unix nanoseconds.
An expired key (`deadline ≤ now`, i.e. not `time.Now().Before(deadline)`)
is removed instead of kept; a file that fails to load is skipped and left
on disk. -/
def loadLoop (now : Nat) : List DirEntry → List Key × List String
  | [] => ([], [])
  | e :: rest =>
    if isKeyFile e then
      match e.load with
      | none => loadLoop now rest
      | some k =>
        let r := loadLoop now rest
        if now < k.deadline then (k :: r.1, r.2)
        else (r.1, e.name :: r.2)
    else loadLoop now rest

/-- `client.loadAllKeys`.  `readDir` is the outcome of
`ioutil.ReadDir(getKeysDir())`.  On success returns the kept keys and the
names of the removed (expired) key files. -/
def loadAllKeys (now : Nat) (readDir : Except GoErr (List DirEntry)) :
    Except GoErr (List Key × List String) :=
  match readDir with
  | .error e => .error (traceWrapE e)
  | .ok files => .ok (loadLoop now files)

/-- `agent.AddedKey` as built by `GetLocalAgentKeys`: the parsed private
key and certificate (parse results modelled as byte strings). -/
structure AddedKey where
  privateKey : List Nat
  certificate : List Nat
  deriving DecidableEq, Repr

/-- The conversion loop of `GetLocalAgentKeys`: for each loaded key parse
its certificate (`ssh.ParseAuthorizedKey` plus the `*ssh.Certificate`
assertion) and its private key (`ssh.ParseRawPrivateKey`); the external
parsers are parameters returning `none` on failure, and the first failure
aborts with an error. -/
def mkAddedKeys (parseCert parsePriv : List Nat → Option (List Nat)) :
    List Key → Except GoErr (List AddedKey)
  | [] => .ok []
  | k :: rest =>
    match parseCert k.cert with
    | none => .error (.errorf "parse authorized key failed")
    | some c =>
      match parsePriv k.priv with
      | none => .error (.errorf "parse raw private key failed")
      | some p =>
        match mkAddedKeys parseCert parsePriv rest with
        | .error e => .error e
        | .ok aks => .ok (AddedKey.mk p c :: aks)

/-- `client.GetLocalAgentKeys`.  `initErr` is the outcome of
`initKeysDir()`. -/
def GetLocalAgentKeys (parseCert parsePriv : List Nat → Option (List Nat))
    (initErr : Option GoErr) (now : Nat) (readDir : Except GoErr (List DirEntry)) :
    Except GoErr (List AddedKey) :=
  match initErr with
  | some e => .error (traceWrapE e)
  | none =>
    match loadAllKeys now readDir with
    | .error e => .error (traceWrapE e)
    | .ok r => mkAddedKeys parseCert parsePriv r.1

/-- `client.GetLocalAgent`: builds a keyring and adds every key from
`GetLocalAgentKeys` to it, in order.  The keyring is modelled as the list
of its added keys (`agent.NewKeyring().Add` appends; its error path is
not reachable for the keys produced above and is not modelled). -/
def GetLocalAgent (parseCert parsePriv : List Nat → Option (List Nat))
    (initErr : Option GoErr) (now : Nat) (readDir : Except GoErr (List DirEntry)) :
    Except GoErr (List AddedKey) :=
  match GetLocalAgentKeys parseCert parsePriv initErr now readDir with
  | .error e => .error (traceWrapE e)
  | .ok keys => .ok (keys.foldl (fun keyring k => keyring ++ [k]) [])

end Teleport

namespace time

/-- `time.Duration` units, in nanoseconds (Go `time.Duration` is an int64
nanosecond count; none of the modelled constants overflows). -/
def Nanosecond : Nat := 1

def Second : Nat := 1000000000

def Minute : Nat := 60 * Second

def Hour : Nat := 60 * Minute

end time

namespace defaults

/-! Constants of `lib/defaults` (package `defaults`). -/

def HTTPListenPort : Nat := 3080

def SSHServerListenPort : Nat := 3022

def SSHProxyListenPort : Nat := 3023

def SSHProxyTunnelListenPort : Nat := 3024

def AuthListenPort : Nat := 3025

def BackendType : String := "bolt"

def EventsBoltFile : String := "events.db"

def KeysBoltFile : String := "keys.db"

def RecordsBoltFile : String := "records.db"

def BindIP : String := "0.0.0.0"

def DefaultShell : String := "/bin/bash"

def LimiterMaxConnections : Int := 1000

def LimiterMaxConcurrentUsers : Int := 250

def MinCertDuration : Nat := time.Minute

def MaxCertDuration : Nat := 30 * time.Hour

def CertDuration : Nat := 12 * time.Hour

def DataDir : String := "/var/lib/teleport"

end defaults

namespace Teleport

/-- Modelled from the spec: the TTL clamp used by Auth when issuing a user
certificate — "expiry = `now + clamp(TTL, MinCertDuration,
MaxCertDuration)`" (the auth issuance code itself is not under `src/`).
A TTL below the minimum is raised to it, one above the maximum lowered to
it. -/
def clampDuration (ttl lo hi : Nat) : Nat := max lo (min hi ttl)

/-- `teleport.BoltBackendType` (package `teleport`, not under `src/`):
the spec fixes the backend types as `bolt|etcd`, and
`defaults.BackendType = "bolt"` refers to the bolt type. -/
def BoltBackendType : String := "bolt"

/-- `teleport.ETCDBackendType` (package `teleport`, not under `src/`). -/
def ETCDBackendType : String := "etcd"

/-- `utils.NetAddr` (package `utils`, not under `src/`): modelled from its
use on strings of the form `tcp://host:port` — the network scheme and the
`host:port` part. -/
structure NetAddr where
  network : String
  addr : String
  deriving DecidableEq, Repr

/-- `defaults.makeAddr(host, port)`: builds the address
`tcp://host:port` and parses it with `utils.ParseAddr` (which on such an
input yields network `tcp` and address `host:port`). -/
def makeAddr (host : String) (port : Nat) : NetAddr :=
  NetAddr.mk "tcp" (host ++ ":" ++ toString port)

/-- `limiter.Rate` (package `limiter`, not under `src/`): modelled from
its construction sites — `Period`, `Average`, `Burst`. -/
structure Rate where
  period : Int
  average : Int
  burst : Int
  deriving DecidableEq, Repr

/-- `limiter.LimiterConfig` (package `limiter`, not under `src/`):
modelled from the fields the corpus reads and writes —
`MaxConnections`, `MaxNumberOfUsers`, `Rates`. -/
structure LimiterConfig where
  maxConnections : Int
  maxNumberOfUsers : Int
  rates : List Rate
  deriving DecidableEq, Repr

/-- `defaults.ConfigureLimiter`: assigns the default connection limits
(the Go function mutates through a pointer; modelled functionally). -/
def ConfigureLimiter (lc : LimiterConfig) : LimiterConfig :=
  { lc with
      maxConnections := defaults.LimiterMaxConnections
      maxNumberOfUsers := defaults.LimiterMaxConcurrentUsers }

/-- `services.CommandLabel` (package `services`, not under `src/`):
modelled from its construction sites — `Period`, `Command`, `Result`. -/
structure CommandLabel where
  period : Int
  command : List String
  result : String
  deriving DecidableEq, Repr

/-- `service.CertificateAuthority` from `lib/service/cfg.go`. -/
structure CertificateAuthority where
  caType : String
  id : String
  domainName : String
  publicKey : String
  deriving DecidableEq, Repr

/-- `service.LocalCertificateAuthority` from `lib/service/cfg.go`. -/
structure LocalCertificateAuthority where
  certificateAuthority : CertificateAuthority
  privateKey : String
  deriving DecidableEq, Repr

/-- The anonymous `EventsBackend` / `RecordsBackend` struct of
`service.AuthConfig`: backend type plus backend-specific parameters. -/
structure BackendConfig where
  type : String
  params : String
  deriving DecidableEq, Repr

/-- The anonymous `KeysBackend` struct of `service.AuthConfig`. -/
structure KeysBackendConfig where
  type : String
  params : String
  encryptionKeys : List String
  deriving DecidableEq, Repr

/-- An `io.Writer` destination, as far as the corpus distinguishes them. -/
inductive Writer where
  | nilWriter : Writer
  | stdout : Writer
  | discard : Writer
  deriving DecidableEq, Repr

/-- `service.SSHConfig`.  Go `nil` maps are `none`; map contents are
modelled as association lists (a harmless determinization of Go map
iteration order). -/
structure SSHConfig where
  enabled : Bool
  token : String
  addr : NetAddr
  shell : String
  limiter : LimiterConfig
  labels : Option (List (String × String))
  cmdLabels : Option (List (String × CommandLabel))
  deriving DecidableEq, Repr

/-- `service.AuthConfig`. -/
structure AuthConfig where
  enabled : Bool
  sshAddr : NetAddr
  token : String
  secretKey : String
  allowedTokens : Option (List (String × String))
  trustedAuthorities : List CertificateAuthority
  domainName : String
  userCA : LocalCertificateAuthority
  hostCA : LocalCertificateAuthority
  keysBackend : KeysBackendConfig
  eventsBackend : BackendConfig
  recordsBackend : BackendConfig
  limiter : LimiterConfig
  deriving DecidableEq, Repr

/-- `service.ProxyConfig`. -/
structure ProxyConfig where
  enabled : Bool
  token : String
  reverseTunnelListenAddr : NetAddr
  webAddr : NetAddr
  sshAddr : NetAddr
  assetsDir : String
  tlsKey : String
  tlsCert : String
  limiter : LimiterConfig
  deriving DecidableEq, Repr

/-- `service.ReverseTunnelConfig`. -/
structure ReverseTunnelConfig where
  enabled : Bool
  token : String
  dialAddr : NetAddr
  limiter : LimiterConfig
  deriving DecidableEq, Repr

/-- `service.Config` from `lib/service/cfg.go`.  `AdvertiseIP` (a
`net.IP`) is modelled as an optional string. -/
structure Config where
  dataDir : String
  hostname : String
  authServers : List NetAddr
  advertiseIP : Option String
  ssh : SSHConfig
  auth : AuthConfig
  reverseTunnel : ReverseTunnelConfig
  proxy : ProxyConfig
  hostUUID : String
  console : Writer
  deriving DecidableEq, Repr

/-- The Go zero value of `LimiterConfig` (as produced by `Config{}`). -/
def zeroLimiter : LimiterConfig := LimiterConfig.mk 0 0 []

/-- The Go zero value of `NetAddr`. -/
def zeroNetAddr : NetAddr := NetAddr.mk "" ""

/-- The Go zero value of `LocalCertificateAuthority`. -/
def zeroLocalCA : LocalCertificateAuthority :=
  LocalCertificateAuthority.mk (CertificateAuthority.mk "" "" "" "") ""

/-- The Go zero value of `service.Config`, as produced by `&Config{}` in
`MakeDefaultConfig`. -/
def zeroConfig : Config where
  dataDir := ""
  hostname := ""
  authServers := []
  advertiseIP := none
  ssh := SSHConfig.mk false "" zeroNetAddr "" zeroLimiter none none
  auth := AuthConfig.mk false zeroNetAddr "" "" none [] "" zeroLocalCA zeroLocalCA
    (KeysBackendConfig.mk "" "" []) (BackendConfig.mk "" "") (BackendConfig.mk "" "")
    zeroLimiter
  reverseTunnel := ReverseTunnelConfig.mk false "" zeroNetAddr zeroLimiter
  proxy := ProxyConfig.mk false "" zeroNetAddr zeroNetAddr zeroNetAddr "" "" "" zeroLimiter
  hostUUID := ""
  console := Writer.nilWriter

/-- `(*Config).ApplyToken(token)` from `lib/service/cfg.go`: assigns the
token to the SSH, Proxy and Auth sections, but only when the token is
non-empty; returns whether the config was modified.  The Go method
mutates the receiver; modelled as returning the updated config together
with the boolean result. -/
def Config.ApplyToken (cfg : Config) (token : String) : Config × Bool :=
  if token ≠ "" then
    ({ cfg with
        ssh := { cfg.ssh with token := token }
        proxy := { cfg.proxy with token := token }
        auth := { cfg.auth with token := token } }, true)
  else (cfg, false)

/-- `filepath.Join` restricted to the uses in the corpus: joining a
clean absolute directory with a plain file name. -/
def filepathJoin (dir file : String) : String := dir ++ "/" ++ file

/-- `service.boltParams`: the BoltDB parameter string
`\x7b"path": "<dir>/<file>"\x7d`. -/
def boltParams (storagePath dbFile : String) : String :=
  "\x7b\"path\": \"" ++ filepathJoin storagePath dbFile ++ "\"\x7d"

/-- `(*Config).ConfigureBolt(dataDir)` from `lib/service/cfg.go`. -/
def ConfigureBolt (cfg : Config) (dataDir : String) : Config :=
  let a := cfg.auth
  let a := if a.eventsBackend.type == BoltBackendType then
    { a with eventsBackend := { a.eventsBackend with
        params := boltParams dataDir defaults.EventsBoltFile } } else a
  let a := if a.keysBackend.type == BoltBackendType then
    { a with keysBackend := { a.keysBackend with
        params := boltParams dataDir defaults.KeysBoltFile } } else a
  let a := if a.recordsBackend.type == BoltBackendType then
    { a with recordsBackend := { a.recordsBackend with
        params := boltParams dataDir defaults.RecordsBoltFile } } else a
  { cfg with auth := a }

/-- `(*Config).ConfigureETCD(dataDir, peers, key)` from
`lib/service/cfg.go`.  `etcdEncode` is the outcome of
`etcdParams` = `json.Marshal(etcdbk.Config{Nodes, Key})`, an external
encoder. -/
def ConfigureETCD (cfg : Config) (dataDir : String) (peers : List String) (key : String)
    (etcdEncode : List String → String → Except GoErr String) : Except GoErr Config :=
  match etcdEncode peers key with
  | .error e => .error (traceWrapE e)
  | .ok params =>
    let a := cfg.auth
    let a := { a with keysBackend := { a.keysBackend with
        type := ETCDBackendType, params := params } }
    let a := { a with eventsBackend := (BackendConfig.mk BoltBackendType
        (boltParams dataDir defaults.EventsBoltFile)) }
    let a := { a with recordsBackend := (BackendConfig.mk BoltBackendType
        (boltParams dataDir defaults.RecordsBoltFile)) }
    .ok { cfg with auth := a }

/-- `service.ApplyDefaults(cfg)` from `lib/service/cfg.go`.
`hostnameResult` is the outcome of `os.Hostname()` (`none` = error, in
which case the source falls back to `"localhost"`).  Assignments follow
the source order. -/
def ApplyDefaults (hostnameResult : Option String) (cfg0 : Config) : Config :=
  let hostname := match hostnameResult with
    | none => "localhost"
    | some h => h
  -- defaults for the auth service:
  let cfg := { cfg0 with auth := { cfg0.auth with
      enabled := true
      sshAddr := makeAddr defaults.BindIP defaults.AuthListenPort
      eventsBackend := (BackendConfig.mk defaults.BackendType
        (boltParams defaults.DataDir defaults.EventsBoltFile))
      keysBackend := { cfg0.auth.keysBackend with
        type := defaults.BackendType
        params := boltParams defaults.DataDir defaults.KeysBoltFile }
      recordsBackend := (BackendConfig.mk defaults.BackendType
        (boltParams defaults.DataDir defaults.RecordsBoltFile))
      limiter := ConfigureLimiter cfg0.auth.limiter } }
  -- defaults for the SSH proxy service:
  let cfg := { cfg with proxy := { cfg.proxy with
      enabled := true
      assetsDir := defaults.DataDir
      sshAddr := makeAddr defaults.BindIP defaults.SSHProxyListenPort
      webAddr := makeAddr defaults.BindIP defaults.HTTPListenPort
      reverseTunnelListenAddr := makeAddr defaults.BindIP defaults.SSHProxyTunnelListenPort
      limiter := ConfigureLimiter cfg.proxy.limiter } }
  let cfg := { cfg with reverseTunnel := { cfg.reverseTunnel with
      enabled := false
      dialAddr := makeAddr "127.0.0.1" defaults.SSHProxyTunnelListenPort
      limiter := ConfigureLimiter cfg.reverseTunnel.limiter } }
  -- defaults for the SSH service:
  let cfg := { cfg with ssh := { cfg.ssh with
      enabled := true
      addr := makeAddr defaults.BindIP defaults.SSHServerListenPort
      shell := defaults.DefaultShell
      limiter := ConfigureLimiter cfg.ssh.limiter } }
  -- global defaults:
  let cfg := { cfg with hostname := hostname, dataDir := defaults.DataDir }
  let cfg := if cfg.auth.enabled then { cfg with authServers := [cfg.auth.sshAddr] } else cfg
  { cfg with console := Writer.stdout }

/-- `service.MakeDefaultConfig()` from `lib/service/cfg.go`. -/
def MakeDefaultConfig (hostnameResult : Option String) : Config :=
  ApplyDefaults hostnameResult zeroConfig

/-- `unicode.IsSpace`: the Unicode White_Space code points. -/
def goIsSpace (c : Char) : Bool :=
  (9 ≤ c.val && c.val ≤ 13) || c == ' ' || c.val == 0x85 || c.val == 0xA0 ||
  c.val == 0x1680 || (0x2000 ≤ c.val && c.val ≤ 0x200A) ||
  c.val == 0x2028 || c.val == 0x2029 || c.val == 0x202F ||
  c.val == 0x205F || c.val == 0x3000

/-- Membership in the cutset `"[]"` of `strings.Trim`. -/
def isBracketChar (c : Char) : Bool := c == '[' || c == ']'

/-- `strings.Trim(s, "[]")`: removes ALL leading and trailing `[` and `]`
characters (not just one of each). -/
def goTrimBrackets (s : List Char) : List Char :=
  ((s.dropWhile isBracketChar).reverse.dropWhile isBracketChar).reverse

/-- `strings.IndexRune(s, ':')` together with the slicing
`s[:idx]` / `s[idx+1:]`: splits at the first `:`, or `none` when there is
no `:` (`idx < 0`). -/
def breakAtColon : List Char → Option (List Char × List Char)
  | [] => none
  | c :: rest =>
    if c == ':' then some ([], rest)
    else (breakAtColon rest).map (fun p => (c :: p.1, p.2))

/-- `strings.FieldsFunc(s, f)` with the stateful closure of
`isCmdLabelSpec`: `f` toggles `openQuote` on every `"` and reports a
separator exactly when the rune is white space and `openQuote` is false
after the toggle.  `oq` is the current `openQuote` state, `cur` the
current field accumulated in reverse. -/
def fieldsQuoted : List Char → Bool → List Char → List String
  | [], _, cur => if cur.isEmpty then [] else [String.mk cur.reverse]
  | c :: rest, oq, cur =>
    let oq := if c == '"' then !oq else oq
    if goIsSpace c && !oq then
      if cur.isEmpty then fieldsQuoted rest oq []
      else String.mk cur.reverse :: fieldsQuoted rest oq []
    else fieldsQuoted rest oq (c :: cur)

/-- `isCmdLabelSpec(spec)` from `tool/teleport/configuration.go`.

`pd` is `time.ParseDuration`, the external stdlib parser, passed as a
parameter returning the parsed duration in nanoseconds or `none` on
failure.  `len(spec)`, `spec[0]` and `spec[len(spec)-1]` index bytes; the
byte length is `String.utf8ByteSize`, and since `[` and `]` are ASCII the
first/last byte tests coincide with the first/last character tests.

Returns the pair `(*services.CommandLabel, error)`. -/
def isCmdLabelSpec (pd : String → Option Int) (spec : String) :
    Option CommandLabel × Option GoErr :=
  let cs := spec.toList
  if spec.utf8ByteSize > 5 && cs.headD ' ' == '[' && cs.getLastD ' ' == ']' then
    let invalidSpecError := GoErr.badParameter "label" ("invalid command label spec: " ++ spec)
    match breakAtColon (goTrimBrackets cs) with
    | none => (none, some (traceWrapE invalidSpecError))
    | some (periodSpec, cmdSpec) =>
      match pd (String.mk periodSpec) with
      | none => (none, some (traceWrapE invalidSpecError))
      | some period =>
        if cmdSpec.length < 1 then (none, some (traceWrapE invalidSpecError))
        else (some (CommandLabel.mk period (fieldsQuoted cmdSpec false []) ""), none)
  else
    (none, none)

/-- `strings.ToLower`, computed character by character (faithful for
ASCII, which covers every severity keyword compared against). -/
def goToLower (s : String) : String := String.mk (s.data.map Char.toLower)

/-- `applyString(src, target)` from `tool/teleport/configuration.go`
(functional: returns the new target value and whether it was
overwritten). -/
def applyString (src : String) (target : String) : String × Bool :=
  if src ≠ "" then (src, true) else (target, false)

/-- One rate entry of the `limits` section of `config.FileConfig`
(package `lib/config`, not under `src/`; shape fixed by its reader in
`applyFileConfig`). -/
structure FileRate where
  period : Int
  average : Int
  burst : Int
  deriving DecidableEq, Repr

/-- The `limits` section of `config.FileConfig`. -/
structure FileLimits where
  maxConnections : Int
  maxUsers : Int
  rates : List FileRate
  deriving DecidableEq, Repr

/-- The `auth_service` section of `config.FileConfig`. -/
structure FileAuth where
  disabled : Bool
  domainName : String
  listenAddress : String
  deriving DecidableEq, Repr

/-- One command-label entry of the `ssh_service` section of
`config.FileConfig`. -/
structure FileCommandLabel where
  name : String
  period : Int
  command : List String
  deriving DecidableEq, Repr

/-- The `ssh_service` section of `config.FileConfig`. -/
structure FileSSH where
  disabled : Bool
  listenAddress : String
  labels : Option (List (String × String))
  commands : Option (List FileCommandLabel)
  deriving DecidableEq, Repr

/-- The `proxy_service` section of `config.FileConfig`. -/
structure FileProxy where
  disabled : Bool
  listenAddress : String
  webAddr : String
  keyFile : String
  certFile : String
  deriving DecidableEq, Repr

/-- The `storage` section of `config.FileConfig` (`Prefix` is named
`prefixKey` here). -/
structure FileStorage where
  type : String
  dirName : String
  peers : List String
  prefixKey : String
  deriving DecidableEq, Repr

/-- The `log` section of `config.FileConfig`. -/
structure FileLogger where
  output : String
  severity : String
  deriving DecidableEq, Repr

/-- `config.FileConfig` (package `lib/config`, not under `src/`): the
fields read by `applyFileConfig`. -/
structure FileConfig where
  nodeName : String
  advertiseIP : Option String
  authServers : List String
  authToken : String
  auth : FileAuth
  ssh : FileSSH
  proxy : FileProxy
  storage : FileStorage
  logger : FileLogger
  limits : FileLimits
  deriving DecidableEq, Repr

/-- The external collaborators (stdlib and `lib/utils` calls) of
`applyFileConfig`, passed as explicit outcome functions. -/
structure Collab where
  /-- `ip.IsLoopback() || ip.IsUnspecified() || ip.IsMulticast()` for
  `validateAdvertiseIP`. -/
  badAdvertiseIP : String → Bool
  /-- `utils.ParseAddr` (`none` = parse error; `applyFileConfig` replaces
  the error with its own message). -/
  parseAddr : String → Option NetAddr
  /-- `utils.ParseHostPortAddr(addr, defaultPort)`. -/
  parseHostPort : String → Nat → Except GoErr NetAddr
  /-- outcome of `os.Create(path)` for a log file (`some` = error). -/
  createLogFile : String → Option GoErr
  /-- `fileExists` (an `os.Stat` probe). -/
  fileExistsAt : String → Bool
  /-- `etcdParams` = `json.Marshal(etcdbk.Config{Nodes, Key})`. -/
  etcdEncode : List String → String → Except GoErr String

/-- The body of the `for _, l := range limiters` loop in the
"apply connection throttling" paragraph of `applyFileConfig`
(`tool/teleport/configuration.go` lines 178-192), acting on one limiter
value `l`. -/
def applyLimiterSettings (limits : FileLimits) (l : LimiterConfig) : LimiterConfig :=
  let l := if limits.maxConnections > 0 then
    { l with maxConnections := limits.maxConnections } else l
  let l := if limits.maxUsers > 0 then
    { l with maxNumberOfUsers := limits.maxUsers } else l
  { l with rates := l.rates ++ limits.rates.map (fun r => Rate.mk r.period r.average r.burst) }

/-- `applyFileConfig(fc, cfg)` from `tool/teleport/configuration.go`.

Process-global effects (logger output and level) do not touch `cfg` and
are modelled only through their error paths.  Note the
"apply connection throttling" paragraph: the Go source copies the three
limiter structs by value into the fresh slice `limiters`, and
`for _, l := range limiters` copies each element again, so every limiter
update lands in a discarded copy and `cfg`'s limiters are left
unchanged. -/
def applyFileConfig (co : Collab) (fcOpt : Option FileConfig) (cfg0 : Config) :
    Except GoErr Config := do
  match fcOpt with
  | none => return cfg0
  | some fc =>
    let mut cfg := cfg0
    -- merge file-based config with defaults in cfg:
    if fc.auth.disabled then
      cfg := { cfg with auth := { cfg.auth with enabled := false } }
    if fc.ssh.disabled then
      cfg := { cfg with ssh := { cfg.ssh with enabled := false } }
    if fc.proxy.disabled then
      cfg := { cfg with proxy := { cfg.proxy with enabled := false } }
    cfg := { cfg with hostname := (applyString fc.nodeName cfg.hostname).1 }
    -- apply advertise_ip setting:
    match fc.advertiseIP with
    | some ip =>
      if co.badAdvertiseIP ip then
        throw (GoErr.badParameter "advertise-ip" ("unreachable advertise IP: " ++ ip))
      cfg := { cfg with advertiseIP := some ip }
    | none => pure ()
    -- config file has auth servers in there?
    if fc.authServers.length > 0 then
      let mut out : List NetAddr := []
      for a in fc.authServers do
        match co.parseAddr a with
        | none => throw (GoErr.errorf ("cannot parse auth server address: " ++ a))
        | some addr => out := out ++ [addr]
      cfg := { cfg with authServers := out }
    cfg := (cfg.ApplyToken fc.authToken).1
    cfg := { cfg with auth := { cfg.auth with domainName := fc.auth.domainName } }
    -- configure storage:
    if fc.storage.type == BoltBackendType then
      cfg := ConfigureBolt cfg fc.storage.dirName
    else if fc.storage.type == ETCDBackendType then
      match ConfigureETCD cfg fc.storage.dirName fc.storage.peers fc.storage.prefixKey
          co.etcdEncode with
      | .error e => throw (traceWrapE e)
      | .ok c => cfg := c
    else if fc.storage.type == "" then
      pure ()
    else
      throw (traceWrapE (GoErr.badParameter "storage"
        ("unsupported storage type: " ++ fc.storage.type)))
    -- apply logger settings (log.SetOutput / log.SetLevel are
    -- process-global and do not touch cfg):
    if fc.logger.output == "" then
      pure ()
    else if fc.logger.output == "stderr" || fc.logger.output == "error"
        || fc.logger.output == "2" then
      pure ()
    else if fc.logger.output == "stdout" || fc.logger.output == "out"
        || fc.logger.output == "1" then
      pure ()
    else
      match co.createLogFile fc.logger.output with
      | some e => throw (traceWrapE e)
      | none => pure ()
    let sev := goToLower fc.logger.severity
    if sev == "" || sev == "info" || sev == "err" || sev == "error" || sev == "debug"
        || sev == "warn" || sev == "warning" then
      pure ()
    else
      throw (GoErr.errorf ("unsupported logger severity: " ++ fc.logger.severity))
    -- apply connection throttling: the slice literal copies the limiter
    -- values; the loop mutates the copies, which are then discarded.
    let limiters := [cfg.ssh.limiter, cfg.auth.limiter, cfg.proxy.limiter]
    let _mutatedCopies := limiters.map (fun l => applyLimiterSettings fc.limits l)
    -- apply proxy_service section:
    if fc.proxy.listenAddress ≠ "" then
      match co.parseHostPort fc.proxy.listenAddress defaults.SSHProxyListenPort with
      | .error e => throw (traceWrapE e)
      | .ok addr => cfg := { cfg with proxy := { cfg.proxy with sshAddr := addr } }
    if fc.proxy.webAddr ≠ "" then
      match co.parseHostPort fc.proxy.webAddr defaults.HTTPListenPort with
      | .error e => throw (traceWrapE e)
      | .ok addr => cfg := { cfg with proxy := { cfg.proxy with webAddr := addr } }
    if fc.proxy.keyFile ≠ "" then
      if !co.fileExistsAt fc.proxy.keyFile then
        throw (GoErr.errorf ("https key does not exist: " ++ fc.proxy.keyFile))
      cfg := { cfg with proxy := { cfg.proxy with tlsKey := fc.proxy.keyFile } }
    if fc.proxy.certFile ≠ "" then
      if !co.fileExistsAt fc.proxy.certFile then
        throw (GoErr.errorf ("https cert does not exist: " ++ fc.proxy.certFile))
      cfg := { cfg with proxy := { cfg.proxy with tlsCert := fc.proxy.certFile } }
    -- apply auth_service section:
    if fc.auth.listenAddress ≠ "" then
      match co.parseHostPort fc.auth.listenAddress defaults.AuthListenPort with
      | .error e => throw (traceWrapE e)
      | .ok addr => cfg := { cfg with auth := { cfg.auth with sshAddr := addr } }
    -- apply ssh_service section:
    if fc.ssh.listenAddress ≠ "" then
      match co.parseHostPort fc.ssh.listenAddress defaults.SSHServerListenPort with
      | .error e => throw (traceWrapE e)
      | .ok addr => cfg := { cfg with ssh := { cfg.ssh with addr := addr } }
    match fc.ssh.labels with
    | some ls => cfg := { cfg with ssh := { cfg.ssh with labels := some ls } }
    | none => pure ()
    match fc.ssh.commands with
    | some cmds =>
      let converted := cmds.map (fun c => (c.name, CommandLabel.mk c.period c.command ""))
      cfg := { cfg with ssh := { cfg.ssh with cmdLabels := some converted } }
    | none => pure ()
    return cfg

end Teleport


namespace Teleport

/-! ## Shared helper lemmas -/

/-- Every key kept by the `loadAllKeys` loop has a deadline strictly in
the future. -/
theorem loadLoop_keys_fresh (now : Nat) (files : List DirEntry) :
    ∀ k ∈ (loadLoop now files).1, now < k.deadline := by
  induction files with
  | nil => simp [loadLoop]
  | cons e rest ih =>
    intro k hk
    by_cases hkf : isKeyFile e
    · cases hload : e.load with
      | none => simp [loadLoop, hkf, hload] at hk; exact ih k hk
      | some k0 =>
        by_cases hfresh : now < k0.deadline
        · simp [loadLoop, hkf, hload, hfresh] at hk
          rcases hk with rfl | hk
          · exact hfresh
          · exact ih k hk
        · simp [loadLoop, hkf, hload, hfresh] at hk
          exact ih k hk
    · simp [loadLoop, hkf] at hk
      exact ih k hk

/-- An expired key file is put on the removal list by the `loadAllKeys`
loop. -/
theorem loadLoop_removes_expired (now : Nat) (files : List DirEntry) (e : DirEntry) (k : Key)
    (he : e ∈ files) (hkf : isKeyFile e = true) (hl : e.load = some k)
    (hexp : ¬ now < k.deadline) : e.name ∈ (loadLoop now files).2 := by
  induction files with
  | nil => cases he
  | cons a rest ih =>
    rcases List.mem_cons.mp he with rfl | he
    · simp [loadLoop, hkf, hl, hexp]
    · have hmem := ih he
      by_cases hakf : isKeyFile a
      · cases hload : a.load with
        | none => simpa [loadLoop, hakf, hload] using hmem
        | some k0 =>
          by_cases hfresh : now < k0.deadline
          · simpa [loadLoop, hakf, hload, hfresh] using hmem
          · simp [loadLoop, hakf, hload, hfresh]
            exact Or.inr hmem
      · simpa [loadLoop, hakf] using hmem

/-- Every name on the removal list comes from a matching key file that
loaded successfully and was expired. -/
theorem loadLoop_removed_src (now : Nat) (files : List DirEntry) (x : String)
    (hx : x ∈ (loadLoop now files).2) :
    ∃ e ∈ files, e.name = x ∧ isKeyFile e = true ∧
      ∃ k, e.load = some k ∧ ¬ now < k.deadline := by
  induction files with
  | nil => simp [loadLoop] at hx
  | cons a rest ih =>
    by_cases hakf : isKeyFile a
    · cases hload : a.load with
      | none =>
        simp [loadLoop, hakf, hload] at hx
        obtain ⟨e, he, hrest⟩ := ih hx
        exact ⟨e, List.mem_cons_of_mem _ he, hrest⟩
      | some k0 =>
        by_cases hfresh : now < k0.deadline
        · simp [loadLoop, hakf, hload, hfresh] at hx
          obtain ⟨e, he, hrest⟩ := ih hx
          exact ⟨e, List.mem_cons_of_mem _ he, hrest⟩
        · simp [loadLoop, hakf, hload, hfresh] at hx
          rcases hx with rfl | hx
          · exact ⟨a, List.mem_cons_self _ _, rfl, hakf, k0, hload, hfresh⟩
          · obtain ⟨e, he, hrest⟩ := ih hx
            exact ⟨e, List.mem_cons_of_mem _ he, hrest⟩
    · simp [loadLoop, hakf] at hx
      obtain ⟨e, he, hrest⟩ := ih hx
      exact ⟨e, List.mem_cons_of_mem _ he, hrest⟩

/-- A valid, unexpired key file is kept by the `loadAllKeys` loop. -/
theorem loadLoop_keeps_fresh (now : Nat) (files : List DirEntry) (e : DirEntry) (k : Key)
    (he : e ∈ files) (hkf : isKeyFile e = true) (hl : e.load = some k)
    (hfresh : now < k.deadline) : k ∈ (loadLoop now files).1 := by
  induction files with
  | nil => cases he
  | cons a rest ih =>
    rcases List.mem_cons.mp he with rfl | he
    · simp [loadLoop, hkf, hl, hfresh]
    · have hmem := ih he
      by_cases hakf : isKeyFile a
      · cases hload : a.load with
        | none => simpa [loadLoop, hakf, hload] using hmem
        | some k0 =>
          by_cases hf0 : now < k0.deadline
          · simp [loadLoop, hakf, hload, hf0]
            exact Or.inr hmem
          · simpa [loadLoop, hakf, hload, hf0] using hmem
      · simpa [loadLoop, hakf] using hmem

/-- Every agent key built by `mkAddedKeys` is the parse image of one of
the input keys. -/
theorem mkAddedKeys_src (pc pp : List Nat → Option (List Nat)) (ks : List Key)
    (aks : List AddedKey) (h : mkAddedKeys pc pp ks = .ok aks) :
    ∀ ak ∈ aks, ∃ k ∈ ks, pp k.priv = some ak.privateKey ∧ pc k.cert = some ak.certificate := by
  induction ks generalizing aks with
  | nil =>
    simp [mkAddedKeys] at h
    subst h; simp
  | cons k0 rest ih =>
    intro ak hak
    cases hc : pc k0.cert with
    | none => simp [mkAddedKeys, hc] at h
    | some c =>
      cases hp : pp k0.priv with
      | none => simp [mkAddedKeys, hc, hp] at h
      | some p =>
        cases hrest : mkAddedKeys pc pp rest with
        | error e => simp [mkAddedKeys, hc, hp, hrest] at h
        | ok aks0 =>
          simp [mkAddedKeys, hc, hp, hrest] at h
          subst h
          rcases List.mem_cons.mp hak with rfl | hak
          · exact ⟨k0, List.mem_cons_self _ _, hp, hc⟩
          · obtain ⟨k, hk, hres⟩ := ih aks0 hrest ak hak
            exact ⟨k, List.mem_cons_of_mem _ hk, hres⟩

/-- Folding `keyring.Add` (append one) over a list from the empty keyring
yields the list itself. -/
theorem foldl_addKey_eq (l : List AddedKey) :
    l.foldl (fun keyring k => keyring ++ [k]) [] = l := by
  suffices h : ∀ acc : List AddedKey, l.foldl (fun keyring k => keyring ++ [k]) acc = acc ++ l by
    simpa using h []
  induction l with
  | nil => simp
  | cons a rest ih =>
    intro acc
    simp [List.foldl_cons, ih]

end Teleport

namespace Teleport

/-! ## Claim theorems -/

/-- C1: the claim fails on the code.  `CheckHostSignature` is supposed to
return `nil` only when the certificate's `SignatureKey` byte-equals a
checking key of a cached host-CA.  But when opening the trust cache
(`boltbk.New`) fails, the source executes `return trace.Wrap(nil)` —
discarding the open error — and so returns `nil`, accepting the host even
though no CA matched (first conjunct: the trust cache is empty, the open
failed, and yet the result is `nil`).  With the very same key and the
same empty cache but a successful open, the host is rejected (second
conjunct). -/
theorem checkHostSignature_acceptsWhenCacheOpenFails :
    CheckHostSignature (HostKey.cert [1, 2]) (some (GoErr.errorf "open failed"))
      (Except.ok []) = none
    ∧ CheckHostSignature (HostKey.cert [1, 2]) none (Except.ok [])
      = some (GoErr.errorf "no matching authority found") :=
  ⟨rfl, rfl⟩

/-- C4: the claim fails on the code.  `AddHostSignersToCache` is supposed
to return a non-nil error when opening the trust-cache backend fails or
when `UpsertCertAuthority` fails, but both failure paths execute
`return trace.Wrap(nil)`, discarding the underlying error and reporting
success: with a failing backend open (first conjunct) or a failing upsert
(second conjunct) the function returns `nil`. -/
theorem addHostSignersToCache_reportsSuccessOnFailure :
    AddHostSignersToCache (some (GoErr.errorf "open failed")) (fun _ => none) [] = none
    ∧ AddHostSignersToCache none (fun _ => some (GoErr.errorf "backend write failed"))
        [CertAuthority.mk "example.com" CAType.host [] []] = none :=
  ⟨rfl, rfl⟩

/-- C5: the certificate-duration bounds equal the spec defaults —
`MinCertDuration` is exactly one minute, `MaxCertDuration` exactly thirty
hours, the nominal `CertDuration` exactly twelve hours (all in
nanoseconds, the unit of Go `time.Duration`), and every TTL clamped to
`[MinCertDuration, MaxCertDuration]` lies between one minute and thirty
hours. -/
theorem certDurationDefaults :
    defaults.MinCertDuration = time.Minute
    ∧ defaults.MinCertDuration = 60 * 1000000000
    ∧ defaults.MaxCertDuration = 30 * time.Hour
    ∧ defaults.MaxCertDuration = 30 * (3600 * 1000000000)
    ∧ defaults.CertDuration = 12 * time.Hour
    ∧ defaults.CertDuration = 12 * (3600 * 1000000000)
    ∧ ∀ ttl : Nat,
        defaults.MinCertDuration
          ≤ clampDuration ttl defaults.MinCertDuration defaults.MaxCertDuration
        ∧ clampDuration ttl defaults.MinCertDuration defaults.MaxCertDuration
          ≤ defaults.MaxCertDuration := by
  refine ⟨rfl, by norm_num [defaults.MinCertDuration, time.Minute, time.Second],
    rfl, by norm_num [defaults.MaxCertDuration, time.Hour, time.Minute, time.Second],
    rfl, by norm_num [defaults.CertDuration, time.Hour, time.Minute, time.Second],
    fun ttl => ⟨le_max_left _ _, ?_⟩⟩
  refine max_le ?_ (min_le_left _ _)
  norm_num [defaults.MinCertDuration, defaults.MaxCertDuration, time.Hour, time.Minute,
    time.Second]

/-- C7: the claim fails on the code.  With a file config whose limits are
`max_connections = 5` and `max_users = 7`, `applyFileConfig` leaves every
limiter of the service configuration at its default
(`MaxConnections = 1000`, `MaxNumberOfUsers = 250`): the Go source copies
the limiter structs by value into the `limiters` slice and mutates the
copies, which are discarded.  The second conjunct shows the value the
loop body computed for each copy — the intended `5`/`7` — before
dropping it. -/
theorem applyFileConfig_limiterSettingsDiscarded :
    (applyFileConfig
        (Collab.mk (fun _ => false) (fun _ => none)
          (fun _ _ => Except.error (GoErr.errorf "unused"))
          (fun _ => none) (fun _ => false)
          (fun _ _ => Except.error (GoErr.errorf "unused")))
        (some (FileConfig.mk "" none [] ""
          (FileAuth.mk false "" "") (FileSSH.mk false "" none none)
          (FileProxy.mk false "" "" "" "") (FileStorage.mk "" "" [] "")
          (FileLogger.mk "" "") (FileLimits.mk 5 7 [])))
        (MakeDefaultConfig (some "host"))).map
        (fun c => (c.ssh.limiter, c.auth.limiter, c.proxy.limiter))
      = Except.ok (LimiterConfig.mk 1000 250 [], LimiterConfig.mk 1000 250 [],
          LimiterConfig.mk 1000 250 [])
    ∧ applyLimiterSettings (FileLimits.mk 5 7 []) (LimiterConfig.mk 1000 250 [])
      = LimiterConfig.mk 5 7 [] :=
  ⟨by rfl, rfl⟩

/-- C8: the default ports equal the spec values (3022 node SSH, 3023
proxy SSH, 3024 proxy reverse tunnel, 3025 auth, 3080 proxy web UI), and
`MakeDefaultConfig` gives each enabled service its default-port address
on `0.0.0.0`, `DataDir` `/var/lib/teleport`, and bolt backends at
`keys.db`, `events.db` and `records.db` under it — for every outcome `h`
of `os.Hostname()`. -/
theorem makeDefaultConfig_portsAndPaths (h : Option String) :
    defaults.SSHServerListenPort = 3022
    ∧ defaults.SSHProxyListenPort = 3023
    ∧ defaults.SSHProxyTunnelListenPort = 3024
    ∧ defaults.AuthListenPort = 3025
    ∧ defaults.HTTPListenPort = 3080
    ∧ (MakeDefaultConfig h).ssh.enabled = true
    ∧ (MakeDefaultConfig h).ssh.addr = NetAddr.mk "tcp" "0.0.0.0:3022"
    ∧ (MakeDefaultConfig h).proxy.enabled = true
    ∧ (MakeDefaultConfig h).proxy.sshAddr = NetAddr.mk "tcp" "0.0.0.0:3023"
    ∧ (MakeDefaultConfig h).proxy.reverseTunnelListenAddr = NetAddr.mk "tcp" "0.0.0.0:3024"
    ∧ (MakeDefaultConfig h).proxy.webAddr = NetAddr.mk "tcp" "0.0.0.0:3080"
    ∧ (MakeDefaultConfig h).auth.enabled = true
    ∧ (MakeDefaultConfig h).auth.sshAddr = NetAddr.mk "tcp" "0.0.0.0:3025"
    ∧ (MakeDefaultConfig h).authServers = [NetAddr.mk "tcp" "0.0.0.0:3025"]
    ∧ (MakeDefaultConfig h).dataDir = "/var/lib/teleport"
    ∧ (MakeDefaultConfig h).auth.keysBackend.type = "bolt"
    ∧ (MakeDefaultConfig h).auth.keysBackend.params
      = "\x7b\"path\": \"/var/lib/teleport/keys.db\"\x7d"
    ∧ (MakeDefaultConfig h).auth.eventsBackend.params
      = "\x7b\"path\": \"/var/lib/teleport/events.db\"\x7d"
    ∧ (MakeDefaultConfig h).auth.recordsBackend.params
      = "\x7b\"path\": \"/var/lib/teleport/records.db\"\x7d" := by
  cases h <;>
    exact ⟨rfl, rfl, rfl, rfl, rfl, rfl, rfl, rfl, rfl, rfl, rfl, rfl, rfl, rfl, rfl, rfl,
      rfl, rfl, rfl⟩

/-- C10: `ApplyToken` with a non-empty token sets exactly
`SSH.Token`, `Proxy.Token` and `Auth.Token`, returns `true`, and leaves
every other field of the config unchanged; `ApplyToken("")` returns
`false` and leaves the whole config unchanged. -/
theorem applyToken_setsTokensOnly (cfg : Config) (token : String) :
    (token ≠ "" →
      (cfg.ApplyToken token).2 = true
      ∧ (cfg.ApplyToken token).1.ssh.token = token
      ∧ (cfg.ApplyToken token).1.proxy.token = token
      ∧ (cfg.ApplyToken token).1.auth.token = token
      ∧ (cfg.ApplyToken token).1.dataDir = cfg.dataDir
      ∧ (cfg.ApplyToken token).1.hostname = cfg.hostname
      ∧ (cfg.ApplyToken token).1.authServers = cfg.authServers
      ∧ (cfg.ApplyToken token).1.advertiseIP = cfg.advertiseIP
      ∧ (cfg.ApplyToken token).1.hostUUID = cfg.hostUUID
      ∧ (cfg.ApplyToken token).1.console = cfg.console
      ∧ (cfg.ApplyToken token).1.reverseTunnel = cfg.reverseTunnel
      ∧ (cfg.ApplyToken token).1.ssh = { cfg.ssh with token := token }
      ∧ (cfg.ApplyToken token).1.proxy = { cfg.proxy with token := token }
      ∧ (cfg.ApplyToken token).1.auth = { cfg.auth with token := token })
    ∧ (token = "" → cfg.ApplyToken token = (cfg, false)) := by
  constructor
  · intro ht
    simp [Config.ApplyToken, ht]
  · intro ht
    simp [Config.ApplyToken, ht]

/-- Witness for C10 at a concrete config and tokens. -/
theorem applyToken_setsTokensOnly_witness :
    (zeroConfig.ApplyToken "tok").2 = true ∧ zeroConfig.ApplyToken "" = (zeroConfig, false) :=
  ⟨((applyToken_setsTokensOnly zeroConfig "tok").1 (by decide)).1,
    (applyToken_setsTokensOnly zeroConfig "").2 rfl⟩

end Teleport

namespace Teleport

/-- C2: for `loadAllKeys` (and hence `GetLocalAgentKeys`/`GetLocalAgent`):
(1) every stored key file whose deadline is not in the future has its
name put on the removal list (passed to `os.Remove`) and its key absent
from the returned list; (2) every returned key has a deadline strictly
after the current time; and (3) every key in the constructed agent
keyring comes from a returned key whose deadline is strictly in the
future — the keyring never contains an expired key. -/
theorem loadAllKeys_prunesExpiredKeys (now : Nat) (files : List DirEntry)
    (keys : List Key) (removed : List String)
    (h : loadAllKeys now (.ok files) = .ok (keys, removed)) :
    (∀ e ∈ files, ∀ k : Key, isKeyFile e = true → e.load = some k → k.deadline ≤ now →
      e.name ∈ removed ∧ k ∉ keys)
    ∧ (∀ k ∈ keys, now < k.deadline)
    ∧ (∀ parseCert parsePriv : List Nat → Option (List Nat), ∀ aks : List AddedKey,
        GetLocalAgent parseCert parsePriv none now (.ok files) = .ok aks →
        ∀ ak ∈ aks, ∃ k ∈ keys, now < k.deadline
          ∧ parsePriv k.priv = some ak.privateKey
          ∧ parseCert k.cert = some ak.certificate) := by
  have hlk : loadLoop now files = (keys, removed) := by
    simpa [loadAllKeys] using h
  refine ⟨?_, ?_, ?_⟩
  · intro e he k hkf hl hexp
    refine ⟨?_, ?_⟩
    · have hmem := loadLoop_removes_expired now files e k he hkf hl (by omega)
      rwa [hlk] at hmem
    · intro hk
      have hfresh := loadLoop_keys_fresh now files k (by rw [hlk]; exact hk)
      omega
  · intro k hk
    exact loadLoop_keys_fresh now files k (by rw [hlk]; exact hk)
  · intro pc pp aks hga ak hak
    have hglk : GetLocalAgentKeys pc pp none now (.ok files) = mkAddedKeys pc pp keys := by
      simp [GetLocalAgentKeys, loadAllKeys, hlk]
    cases hmk : mkAddedKeys pc pp keys with
    | error e => simp [GetLocalAgent, hglk, hmk] at hga
    | ok aks0 =>
      have haks : aks0 = aks := by
        simpa [GetLocalAgent, hglk, hmk, foldl_addKey_eq] using hga
      subst haks
      obtain ⟨k, hk, hpp, hpc⟩ := mkAddedKeys_src pc pp keys aks0 hmk ak hak
      exact ⟨k, hk, loadLoop_keys_fresh now files k (by rw [hlk]; exact hk), hpp, hpc⟩

/-- Witness for C2: at time 100, the key file with deadline 50 is on the
removal list and its key absent from the returned keys. -/
theorem loadAllKeys_prunesExpiredKeys_witness :
    "teleport_b.tkey" ∈ ["teleport_b.tkey"]
    ∧ Key.mk [3] [4] 50 ∉ [Key.mk [1] [2] 200] :=
  (loadAllKeys_prunesExpiredKeys 100
    [DirEntry.mk "teleport_a.tkey" false (some (Key.mk [1] [2] 200)),
     DirEntry.mk "teleport_b.tkey" false (some (Key.mk [3] [4] 50))]
    [Key.mk [1] [2] 200] ["teleport_b.tkey"] (by rfl)).1
    (DirEntry.mk "teleport_b.tkey" false (some (Key.mk [3] [4] 50)))
    (by simp) (Key.mk [3] [4] 50) (by rfl) rfl (by decide)

/-- C9: a key file that fails to read or unmarshal is skipped by
`loadAllKeys`: the call still succeeds (no error), the corrupt file's
name is never passed to `os.Remove` (it stays on disk — file names in a
directory listing are distinct), and every other valid, unexpired key is
still returned. -/
theorem loadAllKeys_skipsCorruptFile (now : Nat) (files : List DirEntry) (e : DirEntry)
    (hnd : (files.map DirEntry.name).Nodup)
    (he : e ∈ files) (_hkf : isKeyFile e = true) (hload : e.load = none) :
    loadAllKeys now (.ok files) = .ok (loadLoop now files)
    ∧ e.name ∉ (loadLoop now files).2
    ∧ (∀ e2 ∈ files, ∀ k : Key, isKeyFile e2 = true → e2.load = some k →
        now < k.deadline → k ∈ (loadLoop now files).1) := by
  refine ⟨rfl, ?_, ?_⟩
  · intro hx
    obtain ⟨e2, he2, hname, hkf2, k, hl2, hexp⟩ := loadLoop_removed_src now files e.name hx
    have he2e : e2 = e := List.inj_on_of_nodup_map hnd he2 he hname
    rw [he2e, hload] at hl2
    cases hl2
  · intro e2 he2 k hkf2 hl2 hfresh
    exact loadLoop_keeps_fresh now files e2 k he2 hkf2 hl2 hfresh

/-- Witness for C9: with one corrupt and one valid key file, the corrupt
file is not removed and the valid key is returned. -/
theorem loadAllKeys_skipsCorruptFile_witness :
    "teleport_c.tkey" ∉
      (loadLoop 100 [DirEntry.mk "teleport_c.tkey" false none,
        DirEntry.mk "teleport_a.tkey" false (some (Key.mk [1] [2] 200))]).2
    ∧ Key.mk [1] [2] 200 ∈
      (loadLoop 100 [DirEntry.mk "teleport_c.tkey" false none,
        DirEntry.mk "teleport_a.tkey" false (some (Key.mk [1] [2] 200))]).1 :=
  ⟨(loadAllKeys_skipsCorruptFile 100
      [DirEntry.mk "teleport_c.tkey" false none,
       DirEntry.mk "teleport_a.tkey" false (some (Key.mk [1] [2] 200))]
      (DirEntry.mk "teleport_c.tkey" false none)
      (by decide) (by simp) rfl rfl).2.1,
   (loadAllKeys_skipsCorruptFile 100
      [DirEntry.mk "teleport_c.tkey" false none,
       DirEntry.mk "teleport_a.tkey" false (some (Key.mk [1] [2] 200))]
      (DirEntry.mk "teleport_c.tkey" false none)
      (by decide) (by simp) rfl rfl).2.2
    (DirEntry.mk "teleport_a.tkey" false (some (Key.mk [1] [2] 200)))
    (by simp) (Key.mk [1] [2] 200) rfl rfl (by decide)⟩

/-- C3 counterexample: the claim asserts the rejection of a certificate
signed by an untrusted CA carries the *distinct* error kind
`unknown-authority`.  The code instead returns
`trace.Errorf("no matching authority found")` — a plain formatted error
whose programmatic kind is the same generic kind as every other
`trace.Errorf` failure of the same function (e.g. the non-certificate
rejection `trace.Errorf("expected certificate")`): no distinct typed
kind exists. -/
theorem checkHostSignature_errorKindNotDistinct :
    CheckHostSignature (HostKey.cert [9]) none
        (Except.ok [CertAuthority.mk "example.com" CAType.host [] [[1, 2]]])
      = some (GoErr.errorf "no matching authority found")
    ∧ GoErr.kind (GoErr.errorf "no matching authority found")
      = GoErr.kind (GoErr.errorf "expected certificate")
    ∧ GoErr.kind (GoErr.errorf "no matching authority found") ≠ GoErrKind.badParameterKind :=
  ⟨rfl, rfl, by decide⟩

/-- C3 amended: whenever `CheckHostSignature` is given (after a
successful cache open and read) an SSH certificate whose `SignatureKey`
matches no checking key of any cached host CA, it returns the error
`trace.Errorf("no matching authority found")` — a generic-kind error
identified only by its message, not a distinct error kind. -/
theorem checkHostSignature_noMatchGenericError (sigKey : KeyBytes) (cas : List CertAuthority)
    (h : ∀ ca ∈ cas, ∀ checker ∈ ca.checkingKeys, keysEqual sigKey checker = false) :
    CheckHostSignature (HostKey.cert sigKey) none (Except.ok cas)
      = some (GoErr.errorf "no matching authority found")
    ∧ GoErr.kind (GoErr.errorf "no matching authority found") = GoErrKind.generic := by
  refine ⟨?_, rfl⟩
  have hany : (cas.any fun ca =>
      ca.checkingKeys.any fun checker => keysEqual sigKey checker) = false := by
    simp only [List.any_eq_false]
    intro ca hca hinner
    obtain ⟨ch, hch, hke⟩ := List.any_eq_true.mp hinner
    simp [h ca hca ch hch] at hke
  simp [CheckHostSignature, hany]

/-- Witness for C3's amended theorem at a concrete untrusted
certificate. -/
theorem checkHostSignature_noMatchGenericError_witness :
    CheckHostSignature (HostKey.cert [9]) none
        (Except.ok [CertAuthority.mk "other.example.com" CAType.host [] [[7]]])
      = some (GoErr.errorf "no matching authority found") :=
  (checkHostSignature_noMatchGenericError [9]
    [CertAuthority.mk "other.example.com" CAType.host [] [[7]]] (by decide)).1

end Teleport

namespace Teleport

/-! ## Helper lemmas for the command-label parser -/

/-- `dropWhile` over the bracket cutset is the identity when the first
character (if any) is not a bracket. -/
theorem dropWhile_bracket_eq_self (l : List Char)
    (h : isBracketChar (l.headD ':') = false) :
    l.dropWhile isBracketChar = l := by
  cases l with
  | nil => rfl
  | cons c cs =>
    have hc : isBracketChar c = false := by simpa using h
    simp [List.dropWhile_cons, hc]

/-- The default-valued head of a reversed list is its default-valued last
element. -/
theorem headD_reverse_eq_getLastD (l : List Char) (d : Char) :
    l.reverse.headD d = l.getLastD d := by
  rw [List.headD_eq_head?, List.head?_reverse, List.getLastD_eq_getLast?]

/-- For a non-empty list the default of `getLastD` is irrelevant. -/
theorem getLastD_indep (l : List Char) (h : l ≠ []) (a b : Char) :
    l.getLastD a = l.getLastD b := by
  rw [List.getLastD_eq_getLast?, List.getLastD_eq_getLast?]
  cases hx : l.getLast? with
  | none =>
    exfalso
    exact h (by simpa using hx)
  | some y => rfl

/-- `getLastD` of an append with a non-empty right part. -/
theorem getLastD_append_right (l1 l2 : List Char) (h : l2 ≠ []) (d : Char) :
    (l1 ++ l2).getLastD d = l2.getLastD d := by
  induction l1 generalizing d with
  | nil => rfl
  | cons c cs ih =>
    simp only [List.cons_append, List.getLastD_cons]
    rw [ih c]
    exact getLastD_indep l2 h c d

/-- `strings.Trim(s, "[]")` of a bracket-wrapped string whose body
neither starts nor ends with a bracket character returns the body. -/
theorem goTrimBrackets_wrap (mid : List Char)
    (hh : isBracketChar (mid.headD ':') = false)
    (hl : isBracketChar (mid.getLastD ':') = false) :
    goTrimBrackets (('[' :: mid) ++ [']']) = mid := by
  cases mid with
  | nil => rfl
  | cons x xs =>
    have hx : isBracketChar x = false := by simpa using hh
    have e1 : ((('[' :: (x :: xs)) ++ [']']).dropWhile isBracketChar)
        = (x :: xs) ++ [']'] := by
      have hbl : isBracketChar '[' = true := rfl
      simp [List.dropWhile_cons, hbl, hx]
    have e3 : ((']' :: (x :: xs).reverse).dropWhile isBracketChar)
        = (x :: xs).reverse := by
      have hbr : isBracketChar ']' = true := rfl
      rw [List.dropWhile_cons]
      simp only [hbr, if_true]
      apply dropWhile_bracket_eq_self
      rw [headD_reverse_eq_getLastD]
      exact hl
    calc goTrimBrackets (('[' :: (x :: xs)) ++ [']'])
        = ((((x :: xs) ++ [']']).reverse).dropWhile isBracketChar).reverse := by
          rw [goTrimBrackets, e1]
      _ = ((']' :: (x :: xs).reverse).dropWhile isBracketChar).reverse := by
          rw [List.reverse_append]
          rfl
      _ = ((x :: xs).reverse).reverse := by rw [e3]
      _ = x :: xs := by simp

/-- `breakAtColon` splits at the separating colon when the left part is
colon-free. -/
theorem breakAtColon_append (d rest : List Char) (hd : ∀ c ∈ d, c ≠ ':') :
    breakAtColon (d ++ ':' :: rest) = some (d, rest) := by
  induction d with
  | nil => simp [breakAtColon]
  | cons c cs ih =>
    have hc : (c == ':') = false := by
      simpa using hd c (List.mem_cons_self _ _)
    simp [breakAtColon, hc, ih (fun x hx => hd x (List.mem_cons_of_mem _ hx))]

/-- `breakAtColon` finds nothing in a colon-free list. -/
theorem breakAtColon_none (l : List Char) (h : ∀ c ∈ l, c ≠ ':') :
    breakAtColon l = none := by
  induction l with
  | nil => rfl
  | cons c cs ih =>
    have hc : (c == ':') = false := by
      simpa using h c (List.mem_cons_self _ _)
    simp [breakAtColon, hc, ih (fun x hx => h x (List.mem_cons_of_mem _ hx))]

end Teleport

namespace Teleport

/-- The default-valued last element of a list is the default or a member
of the list. -/
theorem getLastD_cases (l : List Char) (d : Char) :
    l.getLastD d = d ∨ l.getLastD d ∈ l := by
  cases l with
  | nil => exact Or.inl rfl
  | cons x xs =>
    right
    rw [List.getLastD_eq_getLast?, List.getLast?_eq_getLast (x :: xs) (by simp)]
    simp only [Option.getD_some]
    exact List.getLast_mem _

/-- `isCmdLabelSpec` when the bracket guard (byte length above 5, first
byte `[`, last byte `]`) holds: the body after the guard. -/
theorem isCmdLabelSpec_eval (pd : String → Option Int) (spec : String)
    (h5 : 5 < spec.utf8ByteSize) (hh : spec.toList.headD ' ' = '[')
    (hl : spec.toList.getLastD ' ' = ']') :
    isCmdLabelSpec pd spec =
      (match breakAtColon (goTrimBrackets spec.toList) with
       | none => (none, some (GoErr.badParameter "label"
           ("invalid command label spec: " ++ spec)))
       | some (periodSpec, cmdSpec) =>
         match pd (String.mk periodSpec) with
         | none => (none, some (GoErr.badParameter "label"
             ("invalid command label spec: " ++ spec)))
         | some period =>
           if cmdSpec.length < 1 then
             (none, some (GoErr.badParameter "label"
               ("invalid command label spec: " ++ spec)))
           else (some (CommandLabel.mk period (fieldsQuoted cmdSpec false []) ""), none)) := by
  have hg : (decide (spec.utf8ByteSize > 5) && (spec.toList.headD ' ' == '[')
      && (spec.toList.getLastD ' ' == ']')) = true := by
    rw [hh, hl]
    simp only [beq_self_eq_true, Bool.and_true]
    simpa using h5
  simp only [isCmdLabelSpec]
  rw [if_pos hg]
  simp only [traceWrapE]

/-- `isCmdLabelSpec` when the bracket guard fails: `(nil, nil)`. -/
theorem isCmdLabelSpec_noGuard (pd : String → Option Int) (spec : String)
    (h : ¬ (5 < spec.utf8ByteSize ∧ spec.toList.headD ' ' = '['
        ∧ spec.toList.getLastD ' ' = ']')) :
    isCmdLabelSpec pd spec = (none, none) := by
  have hgb : (decide (spec.utf8ByteSize > 5) && (spec.toList.headD ' ' == '[')
      && (spec.toList.getLastD ' ' == ']')) = false := by
    rcases Bool.eq_false_or_eq_true
        (decide (spec.utf8ByteSize > 5) && (spec.toList.headD ' ' == '[')
          && (spec.toList.getLastD ' ' == ']')) with hb | hb
    · exfalso
      apply h
      simp only [Bool.and_eq_true, decide_eq_true_eq, beq_iff_eq] at hb
      exact ⟨hb.1.1, hb.1.2, hb.2⟩
    · exact hb
  simp only [isCmdLabelSpec]
  rw [if_neg (by rw [hgb]; simp)]

/-- `isCmdLabelSpec` on a bracketed `[<d>:<cmd>]` value whose duration
part is free of colons and brackets and whose command part does not end
in a bracket character, reduced to the duration-parse and
empty-command checks. -/
theorem isCmdLabelSpec_bracketForm (pd : String → Option Int) (d cmd : String)
    (hd : ∀ c ∈ d.data, c ≠ ':' ∧ c ≠ '[' ∧ c ≠ ']')
    (hclast : isBracketChar (cmd.data.getLastD ':') = false)
    (h5 : 5 < ("[" ++ d ++ ":" ++ cmd ++ "]").utf8ByteSize) :
    isCmdLabelSpec pd ("[" ++ d ++ ":" ++ cmd ++ "]") =
      match pd d with
      | none => (none, some (GoErr.badParameter "label"
          ("invalid command label spec: " ++ ("[" ++ d ++ ":" ++ cmd ++ "]"))))
      | some period =>
        if cmd.data.length < 1 then
          (none, some (GoErr.badParameter "label"
            ("invalid command label spec: " ++ ("[" ++ d ++ ":" ++ cmd ++ "]"))))
        else (some (CommandLabel.mk period (fieldsQuoted cmd.data false []) ""), none) := by
  have hdataL : ("[" ++ d ++ ":" ++ cmd ++ "]").toList
      = ('[' :: (d.data ++ ':' :: cmd.data)) ++ [']'] := by
    simp [String.toList, String.data_append]
  have hh : ("[" ++ d ++ ":" ++ cmd ++ "]").toList.headD ' ' = '[' := by
    rw [hdataL]; rfl
  have hl : ("[" ++ d ++ ":" ++ cmd ++ "]").toList.getLastD ' ' = ']' := by
    rw [hdataL, getLastD_append_right _ [']'] (by simp) ' ']
    rfl
  have hmidh : isBracketChar ((d.data ++ ':' :: cmd.data).headD ':') = false := by
    cases hD : d.data with
    | nil => rfl
    | cons c cs =>
      have hc := hd c (by rw [hD]; exact List.mem_cons_self _ _)
      simp only [List.cons_append, List.headD_cons]
      simp [isBracketChar, hc.2.1, hc.2.2]
  have hmidl : isBracketChar ((d.data ++ ':' :: cmd.data).getLastD ':') = false := by
    rw [getLastD_append_right _ (':' :: cmd.data) (by simp) ':', List.getLastD_cons]
    exact hclast
  rw [isCmdLabelSpec_eval pd _ h5 hh hl, hdataL,
    goTrimBrackets_wrap _ hmidh hmidl,
    breakAtColon_append d.data cmd.data (fun c hc => (hd c hc).1)]

/-- C6 amended: the behaviour of `isCmdLabelSpec`, with the corrections
the code forces.  (1) A value `[<d>:<cmd>]` of byte length above 5
(whose duration part is colon- and bracket-free and whose command part
does not end in a bracket character, so that `strings.Trim` removes only
the outer brackets) with `d` parsing as a duration and `cmd` non-empty
yields a `CommandLabel` whose `Period` is the parsed duration and whose
`Command` is `cmd` split by the quote-aware field splitter.  (2) Such a
value whose duration does not parse, (3) one whose command part is
empty, and (4) a bracketed value (byte length above 5) without a colon,
yield the typed `bad-parameter` error naming the spec.  (5) Any other
value — not bracket-enclosed, or of byte length 5 or less — yields
`(nil, nil)` with no error. -/
theorem isCmdLabelSpec_behaviour :
    (∀ (pd : String → Option Int) (d cmd : String) (period : Int),
      pd d = some period →
      (∀ c ∈ d.data, c ≠ ':' ∧ c ≠ '[' ∧ c ≠ ']') →
      cmd ≠ "" →
      isBracketChar (cmd.data.getLastD ':') = false →
      5 < ("[" ++ d ++ ":" ++ cmd ++ "]").utf8ByteSize →
      isCmdLabelSpec pd ("[" ++ d ++ ":" ++ cmd ++ "]")
        = (some (CommandLabel.mk period (fieldsQuoted cmd.data false []) ""), none))
    ∧ (∀ (pd : String → Option Int) (d cmd : String),
      pd d = none →
      (∀ c ∈ d.data, c ≠ ':' ∧ c ≠ '[' ∧ c ≠ ']') →
      isBracketChar (cmd.data.getLastD ':') = false →
      5 < ("[" ++ d ++ ":" ++ cmd ++ "]").utf8ByteSize →
      isCmdLabelSpec pd ("[" ++ d ++ ":" ++ cmd ++ "]")
        = (none, some (GoErr.badParameter "label"
            ("invalid command label spec: " ++ ("[" ++ d ++ ":" ++ cmd ++ "]")))))
    ∧ (∀ (pd : String → Option Int) (d cmd : String) (period : Int),
      pd d = some period →
      (∀ c ∈ d.data, c ≠ ':' ∧ c ≠ '[' ∧ c ≠ ']') →
      cmd = "" →
      5 < ("[" ++ d ++ ":" ++ cmd ++ "]").utf8ByteSize →
      isCmdLabelSpec pd ("[" ++ d ++ ":" ++ cmd ++ "]")
        = (none, some (GoErr.badParameter "label"
            ("invalid command label spec: " ++ ("[" ++ d ++ ":" ++ cmd ++ "]")))))
    ∧ (∀ (pd : String → Option Int) (body : String),
      (∀ c ∈ body.data, c ≠ ':' ∧ c ≠ '[' ∧ c ≠ ']') →
      5 < ("[" ++ body ++ "]").utf8ByteSize →
      isCmdLabelSpec pd ("[" ++ body ++ "]")
        = (none, some (GoErr.badParameter "label"
            ("invalid command label spec: " ++ ("[" ++ body ++ "]")))))
    ∧ (∀ (pd : String → Option Int) (spec : String),
      ¬ (5 < spec.utf8ByteSize ∧ spec.toList.headD ' ' = '['
          ∧ spec.toList.getLastD ' ' = ']') →
      isCmdLabelSpec pd spec = (none, none)) := by
  refine ⟨?_, ?_, ?_, ?_, ?_⟩
  · intro pd d cmd period hpd hd hcmd hclast h5
    rw [isCmdLabelSpec_bracketForm pd d cmd hd hclast h5, hpd]
    have hne : cmd.data ≠ [] := by
      intro hnil
      apply hcmd
      cases cmd with
      | mk l =>
        simp only at hnil
        subst hnil
        rfl
    have hlen2 : ¬ cmd.length = 0 := by
      have hpos := List.length_pos.mpr hne
      have hsl : cmd.length = cmd.data.length := rfl
      omega
    simp [hlen2]
  · intro pd d cmd hpd hd hclast h5
    rw [isCmdLabelSpec_bracketForm pd d cmd hd hclast h5, hpd]
  · intro pd d cmd period hpd hd hcmd h5
    subst hcmd
    rw [isCmdLabelSpec_bracketForm pd d "" hd rfl h5, hpd]
    rfl
  · intro pd body hbody h5
    have hdataL : ("[" ++ body ++ "]").toList = ('[' :: body.data) ++ [']'] := by
      simp [String.toList, String.data_append]
    have hh : ("[" ++ body ++ "]").toList.headD ' ' = '[' := by
      rw [hdataL]; rfl
    have hl : ("[" ++ body ++ "]").toList.getLastD ' ' = ']' := by
      rw [hdataL, getLastD_append_right _ [']'] (by simp) ' ']
      rfl
    have hmidh : isBracketChar (body.data.headD ':') = false := by
      cases hD : body.data with
      | nil => rfl
      | cons c cs =>
        have hc := hbody c (by rw [hD]; exact List.mem_cons_self _ _)
        simp [isBracketChar, hc.2.1, hc.2.2]
    have hmidl : isBracketChar (body.data.getLastD ':') = false := by
      rcases getLastD_cases body.data ':' with hE | hM
      · rw [hE]; rfl
      · have hc := hbody _ hM
        simp only [isBracketChar, Bool.or_eq_false_iff, beq_eq_false_iff_ne]
        exact ⟨hc.2.1, hc.2.2⟩
    rw [isCmdLabelSpec_eval pd _ h5 hh hl, hdataL,
      goTrimBrackets_wrap _ hmidh hmidl,
      breakAtColon_none body.data (fun c hc => (hbody c hc).1)]
  · intro pd spec h
    exact isCmdLabelSpec_noGuard pd spec h

/-- A concrete stand-in for `time.ParseDuration` used in the
counterexample and witness, agreeing with Go on the probed inputs: Go
parses `"0"` to `0` and `"1h"` to `3600000000000` ns. -/
def pdProbe : String → Option Int := fun s =>
  if s = "0" then some 0
  else if s = "1h" then some 3600000000000
  else none

/-- C6 counterexample: `"[0:x]"` is a bracketed `[<d>:<cmd>]` label value
whose duration `"0"` parses (Go: `ParseDuration("0") = 0`) and whose
command `"x"` is non-empty, so the claim requires a `CommandLabel` with
`Period = 0` and `Command = ["x"]` — but the code's `len(spec) > 5`
guard is false for this 5-byte value, and `isCmdLabelSpec` returns
`(nil, nil)` instead. -/
theorem isCmdLabelSpec_shortBracketedFallsThrough :
    isCmdLabelSpec pdProbe "[0:x]" = (none, none)
    ∧ pdProbe "0" = some 0
    ∧ ("x" : String) ≠ "" :=
  ⟨rfl, rfl, by decide⟩

/-- Witness for C6 at concrete inputs: a well-formed command label and a
non-bracketed value. -/
theorem isCmdLabelSpec_behaviour_witness :
    isCmdLabelSpec pdProbe "[1h:ab cd]"
      = (some (CommandLabel.mk 3600000000000 ["ab", "cd"] ""), none)
    ∧ isCmdLabelSpec pdProbe "plain" = (none, none) :=
  ⟨isCmdLabelSpec_behaviour.1 pdProbe "1h" "ab cd" 3600000000000 rfl (by decide)
      (by decide) rfl (by decide),
   isCmdLabelSpec_behaviour.2.2.2.2 pdProbe "plain" (by decide)⟩

end Teleport
